import Mathlib

set_option autoImplicit false

/-
Shallow embedding of the dynatrace-problem-forwarder relay core:
the retry executor (src/forwarder/retry.rs), the tracking store
(src/storage/database.rs, src/storage/models.rs) and the relay engine
(src/forwarder/engine.rs, src/forwarder/connector.rs).

The sqlite store is modelled as in-memory lists; timestamps
(chrono Utc::now) are passed in explicitly as an Int parameter `now`.
Transport-level failures of sqlite and of the network, which in the
source surface as Result errors, are modelled by explicit failure
oracles at the call sites whose behaviour the spec constrains.
-/

namespace DPF

/-! Retry executor, src/forwarder/retry.rs.

The fallible operation is modelled as a function from the 1-based
attempt number to an Except value, which captures an FnMut closure
whose outcome may differ from call to call.  The trace records the
result returned by the loop, the loop counter `attempt` at return
(equal to the number of invocations of the operation, since the
counter is incremented once per invocation), and the list of backoff
delays slept, in seconds, each delay preceding the re-attempt after a
failure. -/

structure RetryTrace (E T : Type) where
  result : Except E T
  invocations : Nat
  delays : List Nat

/-- Loop body of retry_with_backoff: `attempt` is the current 1-based
attempt number (the Rust counter after its increment), `remaining` is
the number of re-attempts still allowed, i.e. max_attempts - attempt
(the Rust guard `attempt < max_attempts` holds iff remaining > 0). -/
def retryFrom {E T : Type} (op : Nat → Except E T) : Nat → Nat → RetryTrace E T
  | attempt, remaining =>
    match op attempt with
    | Except.ok t => { result := Except.ok t, invocations := attempt, delays := [] }
    | Except.error e =>
      match remaining with
      | 0 => { result := Except.error e, invocations := attempt, delays := [] }
      | r + 1 =>
        let rest := retryFrom op (attempt + 1) r
        { rest with delays := 2 ^ (attempt - 1) :: rest.delays }

/-- retry_with_backoff from src/forwarder/retry.rs: first attempt has
number 1, and with `attempt = 1` the guard `attempt < max_attempts`
allows `max_attempts - 1` further re-attempts (Nat subtraction, so
max_attempts = 0 allows none, exactly as `1 < 0` fails in the source). -/
def retry_with_backoff {E T : Type} (op : Nat → Except E T) (max_attempts : Nat) :
    RetryTrace E T :=
  retryFrom op 1 (max_attempts - 1)

/-! Data model, src/dynatrace/models.rs and src/storage/models.rs. -/

/-- ProblemStatus from src/dynatrace/models.rs. -/
inductive ProblemStatus where
  | open
  | closed
  | resolved
  deriving DecidableEq, Repr

/-- The ToString impl for ProblemStatus in src/dynatrace/models.rs. -/
def ProblemStatus.toString : ProblemStatus → String
  | ProblemStatus.open => "OPEN"
  | ProblemStatus.closed => "CLOSED"
  | ProblemStatus.resolved => "RESOLVED"

/-- Problem from src/dynatrace/models.rs, restricted to the fields the
relay engine reads; the remaining fields (display_id, entities, tags,
times) are passthrough payload never inspected by the core. -/
structure Problem where
  problem_id : String
  title : String
  severity_level : String
  status : ProblemStatus
  deriving DecidableEq, Repr

/-- ForwardedProblem from src/storage/models.rs; the sqlite surrogate
rowid `id` is omitted. -/
structure ForwardedProblem where
  problem_id : String
  status : String
  severity_level : Option String
  title : String
  first_seen_at : Int
  last_forwarded_at : Int
  last_status_change_at : Int
  forward_count : Int
  created_at : Int
  updated_at : Int
  deriving DecidableEq, Repr

/-- ForwardedProblem::new from src/storage/models.rs, with the
Utc::now timestamp passed in as `now`. -/
def ForwardedProblem.new (problem_id status : String) (severity_level : Option String)
    (title : String) (now : Int) : ForwardedProblem :=
  { problem_id := problem_id
    status := status
    severity_level := severity_level
    title := title
    first_seen_at := now
    last_forwarded_at := now
    last_status_change_at := now
    forward_count := 1
    created_at := now
    updated_at := now }

/-- ForwardHistory from src/storage/models.rs; rowid omitted. -/
structure ForwardHistory where
  problem_id : String
  connector_name : String
  status : String
  response_code : Option Int
  error_message : Option String
  forwarded_at : Int
  deriving DecidableEq, Repr

/-- ForwardHistory::new from src/storage/models.rs. -/
def ForwardHistory.new (problem_id connector_name status : String)
    (response_code : Option Int) (error_message : Option String) (now : Int) :
    ForwardHistory :=
  { problem_id := problem_id
    connector_name := connector_name
    status := status
    response_code := response_code
    error_message := error_message
    forwarded_at := now }

/-- DatabaseStats from src/storage/models.rs (counts as Nat). -/
structure DatabaseStats where
  total_problems : Nat
  open_problems : Nat
  closed_problems : Nat
  total_forwards : Nat
  successful_forwards : Nat
  failed_forwards : Nat
  deriving DecidableEq, Repr

/-- The two sqlite tables of migrations/001_initial_schema.sql, in
row order: forwarded_problems and forward_history. -/
structure DbState where
  problems : List ForwardedProblem
  history : List ForwardHistory
  deriving DecidableEq, Repr

/-! Tracking store operations, src/storage/database.rs.  Each models
the single SQL statement the Rust method executes; the Result wrapper
of those methods carries only sqlx transport errors (no domain error
is ever constructed there), so the operations are total here. -/

/-- get_problem: SELECT ... WHERE problem_id = ? with fetch_optional,
returning the first matching row. -/
def get_problem (db : DbState) (problem_id : String) : Option ForwardedProblem :=
  db.problems.find? (fun r => r.problem_id == problem_id)

/-- insert_problem: INSERT INTO forwarded_problems. -/
def insert_problem (db : DbState) (p : ForwardedProblem) : DbState :=
  { db with problems := db.problems ++ [p] }

/-- update_problem_status: UPDATE forwarded_problems SET status,
last_forwarded_at, last_status_change_at, forward_count + 1,
updated_at WHERE problem_id = ?.  The UPDATE touches every matching
row and succeeds even when no row matches; the source never inspects
rows_affected and returns Ok(()) unconditionally. -/
def update_problem_status (db : DbState) (problem_id new_status : String)
    (now : Int) : DbState :=
  { db with problems := db.problems.map (fun r =>
      if r.problem_id == problem_id then
        { r with status := new_status
                 last_forwarded_at := now
                 last_status_change_at := now
                 forward_count := r.forward_count + 1
                 updated_at := now }
      else r) }

/-- insert_forward_history: INSERT INTO forward_history. -/
def insert_forward_history (db : DbState) (h : ForwardHistory) : DbState :=
  { db with history := db.history ++ [h] }

/-- clear_all_problems: DELETE FROM forwarded_problems, returning
rows_affected. -/
def clear_all_problems (db : DbState) : Nat × DbState :=
  (db.problems.length, { db with problems := [] })

/-- get_stats: the six COUNT queries of src/storage/database.rs. -/
def get_stats (db : DbState) : DatabaseStats :=
  { total_problems := db.problems.length
    open_problems := db.problems.countP (fun r => r.status == "OPEN")
    closed_problems := db.problems.countP (fun r => r.status != "OPEN")
    total_forwards := db.history.length
    successful_forwards := db.history.countP (fun h => h.status == "success")
    failed_forwards := db.history.countP (fun h => h.status == "failed") }

/-! Relay engine, src/forwarder/engine.rs and src/forwarder/connector.rs. -/

/-- ProcessAction from src/forwarder/engine.rs. -/
inductive ProcessAction where
  | NewProblem
  | StatusChange
  | Skipped
  deriving DecidableEq, Repr

/-- check_problem from src/forwarder/engine.rs: look the record up,
then insert (absent), update (status differs as strings) or skip. -/
def check_problem (db : DbState) (p : Problem) (now : Int) : ProcessAction × DbState :=
  match get_problem db p.problem_id with
  | none =>
      (ProcessAction.NewProblem,
        insert_problem db (ForwardedProblem.new p.problem_id p.status.toString
          (some p.severity_level) p.title now))
  | some db_record =>
      if db_record.status ≠ p.status.toString then
        (ProcessAction.StatusChange,
          update_problem_status db p.problem_id p.status.toString now)
      else
        (ProcessAction.Skipped, db)

/-- The mutable state of the classification loop in poll_and_forward:
the store handle plus the three counters and problems_to_forward. -/
structure CycleAcc where
  db : DbState
  new_problems : Nat
  status_changes : Nat
  skipped : Nat
  problems_to_forward : List Problem
  deriving DecidableEq, Repr

/-- The loop state at entry of the classification loop. -/
def init_acc (db : DbState) : CycleAcc :=
  { db := db, new_problems := 0, status_changes := 0, skipped := 0,
    problems_to_forward := [] }

/-- One iteration of the classification loop of poll_and_forward.  The
Bool paired with the record tells whether the sqlite calls inside
check_problem succeed; false models a transport error, on which the
source logs the record and continues with the next one (engine.rs
lines 85-88), leaving the store untouched since each store method is a
single SQL statement that then did not execute. -/
def classify_step (now : Int) (acc : CycleAcc) : Problem × Bool → CycleAcc
  | (_, false) => acc
  | (p, true) =>
    match check_problem acc.db p now with
    | (ProcessAction.NewProblem, db2) =>
        { acc with db := db2, new_problems := acc.new_problems + 1,
                   problems_to_forward := acc.problems_to_forward ++ [p] }
    | (ProcessAction.StatusChange, db2) =>
        { acc with db := db2, status_changes := acc.status_changes + 1,
                   problems_to_forward := acc.problems_to_forward ++ [p] }
    | (ProcessAction.Skipped, db2) =>
        { acc with db := db2, skipped := acc.skipped + 1 }

/-- The whole classification loop of poll_and_forward. -/
def classify_all (db : DbState) (records : List (Problem × Bool)) (now : Int) :
    CycleAcc :=
  records.foldl (classify_step now) (init_acc db)

/-- HttpMethod from src/config (the four variants dispatched on in
src/forwarder/connector.rs). -/
inductive HttpMethod where
  | post
  | put
  | patch
  | get
  deriving DecidableEq, Repr

/-- The connector configuration fields the dispatch logic reads; name,
url, method and batch_mode.  Headers, timeout, retry_attempts and the
TLS flag do not affect which requests are built per attempt. -/
structure Connector where
  name : String
  url : String
  method : HttpMethod
  batch_mode : Bool
  deriving DecidableEq, Repr

/-- The JSON body of an outbound request: send_batch_request serializes
the slice of problems (a JSON array), send_request one problem (a
single JSON object). -/
inductive JsonBody where
  | arr : List Problem → JsonBody
  | obj : Problem → JsonBody
  deriving DecidableEq, Repr

/-- One outbound HTTP request as built in src/forwarder/connector.rs. -/
structure Request where
  url : String
  method : HttpMethod
  body : JsonBody
  deriving DecidableEq, Repr

/-- A delivery task spawned by forward_collected_problems: a batch task
carries the whole collected list, an individual task one record. -/
inductive DeliveryTask where
  | batch : Connector → List Problem → DeliveryTask
  | individual : Connector → Problem → DeliveryTask
  deriving DecidableEq, Repr

/-- The request one delivery attempt of a task sends: each invocation
of the closure retried by retry_with_backoff calls send_batch_request
once with the whole list, or send_request once with the one record. -/
def task_request : DeliveryTask → Request
  | DeliveryTask.batch c ps =>
      { url := c.url, method := c.method, body := JsonBody.arr ps }
  | DeliveryTask.individual c p =>
      { url := c.url, method := c.method, body := JsonBody.obj p }

/-- The tasks spawned by forward_collected_problems: the connectors are
partitioned on is_batch_mode, then one task per batch connector
carrying the whole list, then one task per (individual connector,
record) pair, in source iteration order. -/
def delivery_tasks (connectors : List Connector) (problems : List Problem) :
    List DeliveryTask :=
  (connectors.filter (fun c => c.batch_mode)).map
      (fun c => DeliveryTask.batch c problems)
    ++ (connectors.filter (fun c => !c.batch_mode)).flatMap
      (fun c => problems.map (fun p => DeliveryTask.individual c p))

/-- The outbound requests of one attempt round: every task sends
exactly one request per attempt. -/
def attempt_requests (connectors : List Connector) (problems : List Problem) :
    List Request :=
  (delivery_tasks connectors problems).map task_request

/-- The final outcome of a delivery task after its retries: a 2xx
response with its status code, or the final error text. -/
inductive Outcome where
  | success : Int → Outcome
  | failure : String → Outcome
  deriving DecidableEq, Repr

/-- The history entries a finished task writes: one per record it
handled, with status "success" and the response code, or "failed" and
the error text (engine.rs lines 182-212 and 227-260). -/
def task_entries (t : DeliveryTask) (o : Outcome) (now : Int) :
    List ForwardHistory :=
  match t, o with
  | DeliveryTask.batch c ps, Outcome.success code =>
      ps.map (fun p =>
        ForwardHistory.new p.problem_id c.name "success" (some code) none now)
  | DeliveryTask.batch c ps, Outcome.failure msg =>
      ps.map (fun p =>
        ForwardHistory.new p.problem_id c.name "failed" none (some msg) now)
  | DeliveryTask.individual c p, Outcome.success code =>
      [ForwardHistory.new p.problem_id c.name "success" (some code) none now]
  | DeliveryTask.individual c p, Outcome.failure msg =>
      [ForwardHistory.new p.problem_id c.name "failed" none (some msg) now]

/-- One task writing its entries: every insert_forward_history result
is discarded with a wildcard let in the source, so a failing insert
(hist_ok returns false, modelling a sqlite error) is skipped and the
task continues with its next entry. -/
def run_task (db : DbState) (t : DeliveryTask) (o : Outcome)
    (hist_ok : ForwardHistory → Bool) (now : Int) : DbState :=
  (task_entries t o now).foldl
    (fun d h => if hist_ok h then insert_forward_history d h else d) db

/-- forward_collected_problems: spawns the tasks, each getting a final
outcome from the network (oracle `outcome`, indexed by task position),
and awaits them all.  The concurrent interleaving of the history
writes is abstracted to task order; the function itself always
returns Ok. -/
def forward_collected_problems (db : DbState) (connectors : List Connector)
    (problems : List Problem) (outcome : Nat → Outcome)
    (hist_ok : ForwardHistory → Bool) (now : Int) : DbState :=
  ((delivery_tasks connectors problems).enum).foldl
    (fun d it => run_task d it.2 (outcome it.1) hist_ok now) db

/-- All history entries one cycle of delivery tasks attempts to write,
in task order. -/
def cycle_entries (connectors : List Connector) (problems : List Problem)
    (outcome : Nat → Outcome) (now : Int) : List ForwardHistory :=
  ((delivery_tasks connectors problems).enum).flatMap
    (fun it => task_entries it.2 (outcome it.1) now)

/-- poll_and_forward: fetch (Except.error models a FetchError, which
aborts the cycle through the question-mark operator before any store
access), classify every fetched record collecting those to forward,
then forward the collected ones (skipped when none were collected).
An error from forward_collected_problems would also be logged and
swallowed, but that function always returns Ok. -/
def poll_and_forward (db : DbState) (connectors : List Connector)
    (fetch : Except Unit (List (Problem × Bool))) (outcome : Nat → Outcome)
    (hist_ok : ForwardHistory → Bool) (now : Int) : Except Unit DbState :=
  match fetch with
  | Except.error e => Except.error e
  | Except.ok records =>
      let acc := classify_all db records now
      if acc.problems_to_forward.isEmpty then Except.ok acc.db
      else
        Except.ok (forward_collected_problems acc.db connectors
          acc.problems_to_forward outcome hist_ok now)

/-- The environment of one poll cycle: the fetch result, the delivery
outcomes, the history-insert failure oracle and the wall clock. -/
structure CycleInput where
  fetch : Except Unit (List (Problem × Bool))
  outcome : Nat → Outcome
  hist_ok : ForwardHistory → Bool
  now : Int

/-- One iteration of the run loop: an Err from poll_and_forward is
logged and discarded, the loop then sleeps and continues; the store is
unchanged by a cycle that failed at fetch. -/
def run_cycle (connectors : List Connector) (db : DbState) (c : CycleInput) :
    DbState :=
  match poll_and_forward db connectors c.fetch c.outcome c.hist_ok c.now with
  | Except.ok db2 => db2
  | Except.error _ => db

/-- The run loop over a finite prefix of cycles: every cycle executes
regardless of earlier cycle errors, since the loop body never breaks
or returns. -/
def run_cycles (connectors : List Connector) (db : DbState)
    (cycles : List CycleInput) : DbState :=
  cycles.foldl (run_cycle connectors) db

/-! Lemmas about the retry executor. -/

lemma retryFrom_first_ok {E T : Type} (op : Nat → Except E T) (a : Nat) (t : T)
    (h : op a = Except.ok t) (r : Nat) :
    retryFrom op a r =
      { result := Except.ok t, invocations := a, delays := [] } := by
  cases r <;> simp [retryFrom, h]

lemma isOk_false_error {E T : Type} {x : Except E T} (h : x.isOk = false) :
    ∃ e, x = Except.error e := by
  cases x with
  | ok t2 => simp [Except.isOk, Except.toBool] at h
  | error e => exact ⟨e, rfl⟩

lemma retryFrom_eventually_ok {E T : Type} (op : Nat → Except E T) (t : T) :
    ∀ (k a r : Nat), 1 ≤ a →
      (∀ i, a ≤ i → i < a + k → (op i).isOk = false) →
      op (a + k) = Except.ok t → k ≤ r →
      retryFrom op a r =
        { result := Except.ok t, invocations := a + k,
          delays := (List.range' (a - 1) k).map (fun j => 2 ^ j) } := by
  intro k
  induction k with
  | zero =>
    intro a r _ _ hok _
    simpa using retryFrom_first_ok op a t (by simpa using hok) r
  | succ k ih =>
    intro a r ha herr hok hkr
    obtain ⟨e, he⟩ := isOk_false_error (herr a le_rfl (by omega))
    obtain ⟨r2, rfl⟩ : ∃ r2, r = r2 + 1 := ⟨r - 1, by omega⟩
    have hrec := ih (a + 1) r2 (by omega)
      (fun i h1 h2 => herr i (by omega) (by omega))
      (by rw [show a + 1 + k = a + (k + 1) by omega]; exact hok) (by omega)
    simp only [retryFrom, he, hrec, Nat.add_sub_cancel]
    rw [List.range'_succ, List.map_cons, show a - 1 + 1 = a by omega]
    simp only [RetryTrace.mk.injEq, eq_self_iff_true, and_true, true_and]
    omega

lemma retryFrom_all_fail {E T : Type} (op : Nat → Except E T) :
    ∀ (r a : Nat), 1 ≤ a →
      (∀ i, a ≤ i → i ≤ a + r → (op i).isOk = false) →
      retryFrom op a r =
        { result := op (a + r), invocations := a + r,
          delays := (List.range' (a - 1) r).map (fun j => 2 ^ j) } := by
  intro r
  induction r with
  | zero =>
    intro a _ herr
    obtain ⟨e, he⟩ := isOk_false_error (herr a le_rfl (by omega))
    simp [retryFrom, he]
  | succ r ih =>
    intro a ha herr
    obtain ⟨e, he⟩ := isOk_false_error (herr a le_rfl (by omega))
    have hrec := ih (a + 1) (by omega)
      (fun i h1 h2 => herr i (by omega) (by omega))
    simp only [retryFrom, he, hrec, Nat.add_sub_cancel]
    rw [List.range'_succ, List.map_cons, show a - 1 + 1 = a by omega]
    simp only [RetryTrace.mk.injEq, eq_self_iff_true, and_true, true_and]
    exact ⟨congrArg op (by omega), by omega⟩

lemma retryFrom_error_succ {E T : Type} (op : Nat → Except E T) (a r : Nat)
    (e : E) (hop : op a = Except.error e) :
    retryFrom op a (r + 1) =
      { result := (retryFrom op (a + 1) r).result,
        invocations := (retryFrom op (a + 1) r).invocations,
        delays := 2 ^ (a - 1) :: (retryFrom op (a + 1) r).delays } := by
  conv_lhs => rw [retryFrom]
  rw [hop]

lemma retryFrom_invocations_ge {E T : Type} (op : Nat → Except E T) :
    ∀ (r a : Nat), a ≤ (retryFrom op a r).invocations := by
  intro r
  induction r with
  | zero => intro a; cases hop : op a <;> simp [retryFrom, hop]
  | succ r ih =>
    intro a
    cases hop : op a with
    | ok t => rw [retryFrom_first_ok op a t hop]
    | error e =>
      have h := ih (a + 1)
      rw [retryFrom_error_succ op a r e hop]
      exact le_trans (Nat.le_succ a) h

/-- Sample operation failing on attempts 1 and 2, succeeding on 3. -/
def op3 : Nat → Except String Nat :=
  fun i => if i < 3 then Except.error "boom" else Except.ok 42

/-- Sample operation failing on every attempt. -/
def opDown : Nat → Except String Nat :=
  fun _ => Except.error "down"

/-- C3: retry_with_backoff returns the first success immediately; when
the operation fails on attempts 1..k with k < max_attempts and then
succeeds, it is invoked exactly k+1 times with backoff delays 2^0,
2^1, ..., 2^(k-1) seconds, each before the corresponding re-attempt;
when every attempt fails it is invoked exactly max_attempts times and
the error of the final attempt is returned, with one delay per
re-attempt (max_attempts - 1 of them) and hence none after the final
attempt; for max_attempts = 1 this means a single invocation with no
retry and no delay. -/
theorem retry_with_backoff_contract {E T : Type} (op : Nat → Except E T)
    (max_attempts k : Nat) (t : T) :
    (k < max_attempts →
      (∀ i, i ≤ k → 1 ≤ i → (op i).isOk = false) →
      op (k + 1) = Except.ok t →
      retry_with_backoff op max_attempts =
        { result := Except.ok t, invocations := k + 1,
          delays := (List.range k).map (fun j => 2 ^ j) }) ∧
    ((∀ i, i ≤ max_attempts → 1 ≤ i → (op i).isOk = false) →
      1 ≤ max_attempts →
      retry_with_backoff op max_attempts =
        { result := op max_attempts, invocations := max_attempts,
          delays := (List.range (max_attempts - 1)).map (fun j => 2 ^ j) }) := by
  constructor
  · intro hk herr hok
    have h := retryFrom_eventually_ok op t k 1 (max_attempts - 1) le_rfl
      (fun i h1 h2 => herr i (by omega) h1)
      (by rw [Nat.add_comm 1 k]; exact hok) (by omega)
    rw [retry_with_backoff, h, show (1 : Nat) - 1 = 0 from rfl,
      Nat.add_comm 1 k, ← List.range_eq_range']
  · intro herr hmax
    have h := retryFrom_all_fail op (max_attempts - 1) 1 le_rfl
      (fun i h1 h2 => herr i (by omega) h1)
    rw [retry_with_backoff, h, show (1 : Nat) - 1 = 0 from rfl,
      show 1 + (max_attempts - 1) = max_attempts from by omega,
      ← List.range_eq_range']

/-- Witness for retry_with_backoff_contract: an operation failing twice
then succeeding, under max_attempts = 5, is invoked 3 times with
delays 1 and 2 seconds; an always-failing operation under
max_attempts = 3 is invoked 3 times and its final error returned. -/
theorem retry_with_backoff_contract_witness :
    retry_with_backoff op3 5 =
      { result := Except.ok 42, invocations := 3, delays := [1, 2] } ∧
    retry_with_backoff opDown 3 =
      { result := Except.error "down", invocations := 3, delays := [1, 2] } := by
  constructor
  · have h := (retry_with_backoff_contract op3 5 2 42).1 (by decide)
      (by decide) (by rfl)
    rw [h]
    rfl
  · have h := (retry_with_backoff_contract opDown 3 0 0).2 (by decide) (by decide)
    rw [h]
    rfl

/-- C10: the executor invokes the operation at least once for every
max_attempts; in particular with max_attempts = 0 the operation is
invoked exactly once and its result, also a failure, is returned
immediately with an empty delay list (no backoff, no further loop). -/
theorem retry_with_backoff_zero_attempts {E T : Type} (op : Nat → Except E T) :
    retry_with_backoff op 0 =
      { result := op 1, invocations := 1, delays := [] } ∧
    ∀ max_attempts, 1 ≤ (retry_with_backoff op max_attempts).invocations := by
  constructor
  · rw [retry_with_backoff]
    cases hop : op 1 <;> simp [retryFrom, hop]
  · intro m
    exact retryFrom_invocations_ge op (m - 1) 1

/-! Lemmas about the tracking store. -/

lemma find?_map_if (p : ForwardedProblem → Bool) (f : ForwardedProblem → ForwardedProblem)
    (hf : ∀ x, p x = true → p (f x) = true) :
    ∀ (l : List ForwardedProblem) (r : ForwardedProblem), l.find? p = some r →
      (l.map (fun x => if p x then f x else x)).find? p = some (f r) := by
  intro l
  induction l with
  | nil => intro r h; simp at h
  | cons a l ih =>
    intro r h
    by_cases hpa : p a = true
    · have hra : r = a := by
        rw [List.find?_cons_of_pos l hpa] at h
        exact (Option.some_inj.mp h).symm
      subst hra
      rw [List.map_cons, if_pos hpa, List.find?_cons_of_pos _ (hf r hpa)]
    · rw [List.find?_cons_of_neg l hpa] at h
      rw [List.map_cons, if_neg hpa, List.find?_cons_of_neg _ hpa]
      exact ih r h

lemma update_problem_status_absent (db : DbState) (pid ns : String) (now : Int)
    (h : get_problem db pid = none) :
    update_problem_status db pid ns now = db := by
  have hall := List.find?_eq_none.mp h
  have hmap : (db.problems.map (fun r =>
      if r.problem_id == pid then
        { r with status := ns
                 last_forwarded_at := now
                 last_status_change_at := now
                 forward_count := r.forward_count + 1
                 updated_at := now }
      else r)) = db.problems := by
    conv_rhs => rw [← List.map_id db.problems]
    refine List.map_congr_left (fun r hr => ?_)
    simp [hall r hr]
  unfold update_problem_status
  rw [hmap]

lemma get_problem_update_present (db : DbState) (pid ns : String) (now : Int)
    (r : ForwardedProblem) (h : get_problem db pid = some r) :
    get_problem (update_problem_status db pid ns now) pid =
      some { r with status := ns
                    last_forwarded_at := now
                    last_status_change_at := now
                    forward_count := r.forward_count + 1
                    updated_at := now } := by
  exact find?_map_if (fun x => x.problem_id == pid)
    (fun x => { x with status := ns
                       last_forwarded_at := now
                       last_status_change_at := now
                       forward_count := x.forward_count + 1
                       updated_at := now })
    (fun x hx => hx) db.problems r h

/-- C4 counterexample: called on the empty store, where no row with
problem_id P1 exists, update_problem_status does not fail with any
error: the source runs the UPDATE, never inspects rows_affected and
returns Ok(()) unconditionally, and src/error.rs has no NotFoundError
variant at all.  The call completes and leaves the store unchanged. -/
theorem update_problem_status_absent_is_noop :
    update_problem_status { problems := [], history := [] } "P1" "RESOLVED" 7 =
      { problems := [], history := [] } := by
  decide

/-- C4 (amended): update_problem_status called with a problem_id for
which no row exists succeeds as a no-op, returning the store
unchanged, rather than failing with a NotFoundError; when the row
exists it sets the status, increments forward_count by exactly 1 and
refreshes last_forwarded_at, last_status_change_at and updated_at to
the current time. -/
theorem update_problem_status_contract (db : DbState) (pid ns : String) (now : Int) :
    (get_problem db pid = none → update_problem_status db pid ns now = db) ∧
    (∀ r, get_problem db pid = some r →
      get_problem (update_problem_status db pid ns now) pid =
        some { r with status := ns
                      last_forwarded_at := now
                      last_status_change_at := now
                      forward_count := r.forward_count + 1
                      updated_at := now }) :=
  ⟨update_problem_status_absent db pid ns now,
   fun r h => get_problem_update_present db pid ns now r h⟩

/-- Sample tracked row, inserted at time 10 with status OPEN. -/
def rowP1 : ForwardedProblem :=
  ForwardedProblem.new "P1" "OPEN" (some "AVAILABILITY") "CPU saturated" 10

/-- Witness for update_problem_status_contract on the empty store and
on a store holding one OPEN row for P1. -/
theorem update_problem_status_contract_witness :
    (get_problem { problems := [], history := [] } "P1" = none ∧
      update_problem_status { problems := [], history := [] } "P1" "RESOLVED" 3 =
        { problems := [], history := [] }) ∧
    (get_problem { problems := [rowP1], history := [] } "P1" = some rowP1 ∧
      get_problem
          (update_problem_status { problems := [rowP1], history := [] } "P1" "RESOLVED" 20)
          "P1" =
        some { rowP1 with status := "RESOLVED"
                          last_forwarded_at := 20
                          last_status_change_at := 20
                          forward_count := rowP1.forward_count + 1
                          updated_at := 20 }) := by
  constructor
  · exact ⟨by decide,
      (update_problem_status_contract { problems := [], history := [] } "P1" "RESOLVED" 3).1
        (by decide)⟩
  · exact ⟨by decide,
      (update_problem_status_contract { problems := [rowP1], history := [] } "P1" "RESOLVED" 20).2
        rowP1 (by decide)⟩

/-- C5: clear_all_problems removes every TrackedProblem row (every
lookup afterwards misses), returns the number of rows removed, and
leaves every DeliveryHistoryEntry row unchanged. -/
theorem clear_all_problems_contract (db : DbState) :
    (clear_all_problems db).1 = db.problems.length ∧
    ((clear_all_problems db).2).problems = [] ∧
    ((clear_all_problems db).2).history = db.history ∧
    ∀ pid, get_problem (clear_all_problems db).2 pid = none :=
  ⟨rfl, rfl, rfl, fun _ => rfl⟩

/-- C9: the stats snapshot satisfies total = open + closed, because
open_problems counts exactly the rows whose status is the string OPEN
and closed_problems counts every other row; appending a row whose
status is not OPEN (for instance RESOLVED) increments closed_problems,
and appending an OPEN row increments open_problems. -/
theorem get_stats_partition (db : DbState) :
    (get_stats db).total_problems =
      (get_stats db).open_problems + (get_stats db).closed_problems ∧
    (∀ r, r.status ≠ "OPEN" →
      (get_stats { db with problems := db.problems ++ [r] }).closed_problems =
        (get_stats db).closed_problems + 1 ∧
      (get_stats { db with problems := db.problems ++ [r] }).open_problems =
        (get_stats db).open_problems) ∧
    (∀ r, r.status = "OPEN" →
      (get_stats { db with problems := db.problems ++ [r] }).open_problems =
        (get_stats db).open_problems + 1 ∧
      (get_stats { db with problems := db.problems ++ [r] }).closed_problems =
        (get_stats db).closed_problems) := by
  refine ⟨?_, ?_, ?_⟩
  · have h := List.length_eq_countP_add_countP
      (p := fun r : ForwardedProblem => r.status == "OPEN") db.problems
    simpa [get_stats, bne] using h
  · intro r hr
    constructor <;> simp [get_stats, List.countP_append, List.countP_cons, hr, bne]
  · intro r hr
    constructor <;> simp [get_stats, List.countP_append, List.countP_cons, hr, bne]

/-- Witness for get_stats_partition: a store holding one OPEN and one
RESOLVED row, extended by another RESOLVED row. -/
theorem get_stats_partition_witness :
    ((ForwardedProblem.new "P2" "RESOLVED" none "disk" 4).status ≠ "OPEN" ∧
      (get_stats { problems := [rowP1, ForwardedProblem.new "P2" "RESOLVED" none "disk" 4],
                   history := [] }).closed_problems =
        (get_stats { problems := [rowP1], history := [] }).closed_problems + 1 ∧
      (get_stats { problems := [rowP1, ForwardedProblem.new "P2" "RESOLVED" none "disk" 4],
                   history := [] }).open_problems =
        (get_stats { problems := [rowP1], history := [] }).open_problems) ∧
    (rowP1.status = "OPEN" ∧
      (get_stats { problems := [rowP1], history := [] }).open_problems =
        (get_stats { problems := [], history := [] }).open_problems + 1 ∧
      (get_stats { problems := [rowP1], history := [] }).closed_problems =
        (get_stats { problems := [], history := [] }).closed_problems) := by
  constructor
  · exact ⟨by decide,
      (get_stats_partition { problems := [rowP1], history := [] }).2.1
        (ForwardedProblem.new "P2" "RESOLVED" none "disk" 4) (by decide)⟩
  · exact ⟨by decide,
      (get_stats_partition { problems := [], history := [] }).2.2 rowP1 (by decide)⟩

/-! Lemmas about classification. -/

lemma check_problem_absent (db : DbState) (p : Problem) (now : Int)
    (h : get_problem db p.problem_id = none) :
    check_problem db p now =
      (ProcessAction.NewProblem,
        insert_problem db (ForwardedProblem.new p.problem_id p.status.toString
          (some p.severity_level) p.title now)) := by
  unfold check_problem
  rw [h]

lemma check_problem_changed (db : DbState) (p : Problem) (now : Int)
    (r : ForwardedProblem) (h : get_problem db p.problem_id = some r)
    (hne : r.status ≠ p.status.toString) :
    check_problem db p now =
      (ProcessAction.StatusChange,
        update_problem_status db p.problem_id p.status.toString now) := by
  unfold check_problem
  rw [h]
  simp [hne]

lemma check_problem_unchanged (db : DbState) (p : Problem) (now : Int)
    (r : ForwardedProblem) (h : get_problem db p.problem_id = some r)
    (heq : r.status = p.status.toString) :
    check_problem db p now = (ProcessAction.Skipped, db) := by
  unfold check_problem
  rw [h]
  simp [heq]

/-- C1: classification of a fetched record against the tracking store
follows exactly the three-way case split, with its emission and store
effect: an absent problem_id is classified NewProblem, the record is
appended to problems_to_forward and a fresh row carrying the observed
status with forward_count = 1 is inserted; a present row whose stored
status differs as a string from the observed one is classified
StatusChange, the record is appended to problems_to_forward and the
stored row gets the observed status with forward_count incremented by
exactly 1; a present row with an equal status is classified Skipped,
with no emission and no store mutation. -/
theorem check_problem_three_way (acc : CycleAcc) (p : Problem) (now : Int) :
    (get_problem acc.db p.problem_id = none →
      check_problem acc.db p now =
        (ProcessAction.NewProblem,
          insert_problem acc.db (ForwardedProblem.new p.problem_id p.status.toString
            (some p.severity_level) p.title now)) ∧
      (ForwardedProblem.new p.problem_id p.status.toString
        (some p.severity_level) p.title now).forward_count = 1 ∧
      classify_step now acc (p, true) =
        { acc with
            db := insert_problem acc.db (ForwardedProblem.new p.problem_id
              p.status.toString (some p.severity_level) p.title now)
            new_problems := acc.new_problems + 1
            problems_to_forward := acc.problems_to_forward ++ [p] }) ∧
    (∀ r, get_problem acc.db p.problem_id = some r →
      r.status ≠ p.status.toString →
      check_problem acc.db p now =
        (ProcessAction.StatusChange,
          update_problem_status acc.db p.problem_id p.status.toString now) ∧
      get_problem (update_problem_status acc.db p.problem_id p.status.toString now)
          p.problem_id =
        some { r with
                 status := p.status.toString
                 last_forwarded_at := now
                 last_status_change_at := now
                 forward_count := r.forward_count + 1
                 updated_at := now } ∧
      classify_step now acc (p, true) =
        { acc with
            db := update_problem_status acc.db p.problem_id p.status.toString now
            status_changes := acc.status_changes + 1
            problems_to_forward := acc.problems_to_forward ++ [p] }) ∧
    (∀ r, get_problem acc.db p.problem_id = some r →
      r.status = p.status.toString →
      check_problem acc.db p now = (ProcessAction.Skipped, acc.db) ∧
      classify_step now acc (p, true) = { acc with skipped := acc.skipped + 1 }) := by
  refine ⟨fun h => ?_, fun r h hne => ?_, fun r h heq => ?_⟩
  · refine ⟨check_problem_absent acc.db p now h, rfl, ?_⟩
    simp only [classify_step, check_problem_absent acc.db p now h]
  · refine ⟨check_problem_changed acc.db p now r h hne,
      get_problem_update_present acc.db p.problem_id p.status.toString now r h, ?_⟩
    simp only [classify_step, check_problem_changed acc.db p now r h hne]
  · refine ⟨check_problem_unchanged acc.db p now r h heq, ?_⟩
    simp only [classify_step, check_problem_unchanged acc.db p now r h heq]

/-- Sample fetched record P1 with status OPEN. -/
def pOpen : Problem :=
  { problem_id := "P1", title := "CPU saturated",
    severity_level := "AVAILABILITY", status := ProblemStatus.open }

/-- Sample fetched record P1 with status RESOLVED. -/
def pResolved : Problem := { pOpen with status := ProblemStatus.resolved }

/-- Loop state over the empty store. -/
def accEmpty : CycleAcc := init_acc { problems := [], history := [] }

/-- Loop state over a store tracking P1 as OPEN. -/
def accP1 : CycleAcc := init_acc { problems := [rowP1], history := [] }

/-- Witness for check_problem_three_way: P1 fetched against the empty
store (new), fetched as RESOLVED against a store tracking it OPEN
(changed), and fetched as OPEN against the same store (unchanged). -/
theorem check_problem_three_way_witness :
    (get_problem accEmpty.db pOpen.problem_id = none ∧
      classify_step 10 accEmpty (pOpen, true) =
        { accEmpty with
            db := insert_problem accEmpty.db
              (ForwardedProblem.new "P1" "OPEN" (some "AVAILABILITY") "CPU saturated" 10)
            new_problems := 1
            problems_to_forward := [pOpen] }) ∧
    (get_problem accP1.db pResolved.problem_id = some rowP1 ∧
      rowP1.status ≠ pResolved.status.toString ∧
      classify_step 20 accP1 (pResolved, true) =
        { accP1 with
            db := update_problem_status accP1.db "P1" "RESOLVED" 20
            status_changes := 1
            problems_to_forward := [pResolved] }) ∧
    (get_problem accP1.db pOpen.problem_id = some rowP1 ∧
      rowP1.status = pOpen.status.toString ∧
      classify_step 30 accP1 (pOpen, true) = { accP1 with skipped := 1 }) := by
  refine ⟨⟨by decide, ?_⟩, ⟨by decide, by decide, ?_⟩, ⟨by decide, by decide, ?_⟩⟩
  · exact ((check_problem_three_way accEmpty pOpen 10).1 (by decide)).2.2
  · exact ((check_problem_three_way accP1 pResolved 20).2.1 rowP1
      (by decide) (by decide)).2.2
  · exact ((check_problem_three_way accP1 pOpen 30).2.2 rowP1
      (by decide) (by decide)).2

/-! Lemmas about delivery and the history ledger. -/

lemma best_effort_foldl_problems (hist_ok : ForwardHistory → Bool) :
    ∀ (es : List ForwardHistory) (db : DbState),
      (es.foldl (fun d h => if hist_ok h then insert_forward_history d h else d)
        db).problems = db.problems := by
  intro es
  induction es with
  | nil => intro db; rfl
  | cons e l ih =>
    intro db
    rw [List.foldl_cons, ih]
    by_cases he : hist_ok e = true
    · simp [he, insert_forward_history]
    · simp [he]

lemma best_effort_foldl_history (hist_ok : ForwardHistory → Bool) :
    ∀ (es : List ForwardHistory) (db : DbState),
      (es.foldl (fun d h => if hist_ok h then insert_forward_history d h else d)
        db).history = db.history ++ es.filter hist_ok := by
  intro es
  induction es with
  | nil => intro db; simp
  | cons e l ih =>
    intro db
    rw [List.foldl_cons, ih, List.filter_cons]
    by_cases he : hist_ok e = true
    · simp [he, insert_forward_history]
    · simp [he]

lemma run_task_problems (db : DbState) (t : DeliveryTask) (o : Outcome)
    (hist_ok : ForwardHistory → Bool) (now : Int) :
    (run_task db t o hist_ok now).problems = db.problems :=
  best_effort_foldl_problems hist_ok (task_entries t o now) db

lemma run_task_history (db : DbState) (t : DeliveryTask) (o : Outcome)
    (hist_ok : ForwardHistory → Bool) (now : Int) :
    (run_task db t o hist_ok now).history =
      db.history ++ (task_entries t o now).filter hist_ok :=
  best_effort_foldl_history hist_ok (task_entries t o now) db

lemma run_tasks_problems (outcome : Nat → Outcome)
    (hist_ok : ForwardHistory → Bool) (now : Int) :
    ∀ (ts : List (Nat × DeliveryTask)) (db : DbState),
      (ts.foldl (fun d it => run_task d it.2 (outcome it.1) hist_ok now)
        db).problems = db.problems := by
  intro ts
  induction ts with
  | nil => intro db; rfl
  | cons a ts ih =>
    intro db
    rw [List.foldl_cons, ih, run_task_problems]

lemma run_tasks_history (outcome : Nat → Outcome)
    (hist_ok : ForwardHistory → Bool) (now : Int) :
    ∀ (ts : List (Nat × DeliveryTask)) (db : DbState),
      (ts.foldl (fun d it => run_task d it.2 (outcome it.1) hist_ok now)
        db).history =
        db.history ++
          (ts.flatMap (fun it => task_entries it.2 (outcome it.1) now)).filter
            hist_ok := by
  intro ts
  induction ts with
  | nil => intro db; simp
  | cons a ts ih =>
    intro db
    rw [List.foldl_cons, ih, run_task_history, List.flatMap_cons,
      List.filter_append, List.append_assoc]

lemma forward_collected_problems_frame (db : DbState) (connectors : List Connector)
    (problems : List Problem) (outcome : Nat → Outcome)
    (hist_ok : ForwardHistory → Bool) (now : Int) :
    (forward_collected_problems db connectors problems outcome hist_ok now).problems
      = db.problems :=
  run_tasks_problems outcome hist_ok now ((delivery_tasks connectors problems).enum) db

lemma forward_collected_problems_ledger (db : DbState) (connectors : List Connector)
    (problems : List Problem) (outcome : Nat → Outcome)
    (hist_ok : ForwardHistory → Bool) (now : Int) :
    (forward_collected_problems db connectors problems outcome hist_ok now).history
      = db.history ++ (cycle_entries connectors problems outcome now).filter hist_ok :=
  run_tasks_history outcome hist_ok now ((delivery_tasks connectors problems).enum) db

/-- C2: within one poll cycle every classification and its tracking
mutation is complete before delivery — the problems table after the
whole cycle is exactly the table classify_all left, for every possible
delivery outcome assignment — and a delivery failure never mutates or
rolls back a tracking row, since delivery tasks only append history:
the final problems table does not depend on the outcome or on the
history-insert oracle at all. -/
theorem classification_before_delivery (connectors : List Connector) (db : DbState)
    (records : List (Problem × Bool)) (outcome : Nat → Outcome)
    (hist_ok : ForwardHistory → Bool) (now : Int) :
    (run_cycle connectors db
      { fetch := Except.ok records, outcome := outcome, hist_ok := hist_ok,
        now := now }).problems = (classify_all db records now).db.problems ∧
    ∀ (outcome2 : Nat → Outcome) (hist_ok2 : ForwardHistory → Bool),
      (run_cycle connectors db
        { fetch := Except.ok records, outcome := outcome2, hist_ok := hist_ok2,
          now := now }).problems =
      (run_cycle connectors db
        { fetch := Except.ok records, outcome := outcome, hist_ok := hist_ok,
          now := now }).problems := by
  have key : ∀ (o : Nat → Outcome) (hk : ForwardHistory → Bool),
      (run_cycle connectors db
        { fetch := Except.ok records, outcome := o, hist_ok := hk,
          now := now }).problems = (classify_all db records now).db.problems := by
    intro o hk
    unfold run_cycle poll_and_forward
    by_cases he : (classify_all db records now).problems_to_forward.isEmpty
    · simp [he]
    · simp [he, forward_collected_problems_frame]
  exact ⟨key outcome hist_ok,
    fun o2 hk2 => (key o2 hk2).trans (key outcome hist_ok).symm⟩

/-- C8: a failure appending a DeliveryHistoryEntry never propagates
beyond that entry: the cycle's delivery step leaves the problems table
untouched and appends exactly the attempted entries that the insert
oracle accepts — a failed insert is dropped while every other entry of
the same and of other tasks is still written, whatever the delivery
outcomes were. -/
theorem history_append_best_effort (db : DbState) (connectors : List Connector)
    (problems : List Problem) (outcome : Nat → Outcome)
    (hist_ok : ForwardHistory → Bool) (now : Int) :
    (forward_collected_problems db connectors problems outcome hist_ok now).problems
      = db.problems ∧
    (forward_collected_problems db connectors problems outcome hist_ok now).history
      = db.history ++ (cycle_entries connectors problems outcome now).filter hist_ok ∧
    (forward_collected_problems db connectors problems outcome
        (fun _ => true) now).history
      = db.history ++ cycle_entries connectors problems outcome now :=
  ⟨forward_collected_problems_frame db connectors problems outcome hist_ok now,
   forward_collected_problems_ledger db connectors problems outcome hist_ok now,
   by
    rw [forward_collected_problems_ledger]
    simp⟩

/-- C6: in one fan-out cycle with a nonempty list of records needing
delivery, a batch-mode connector gets exactly one delivery task, so
one outbound request per attempt, whose JSON body is the array of all
N records; an individual-mode connector gets exactly one task per
record, so N requests per attempt round, each carrying one record as a
single JSON object. -/
theorem dispatch_mode_requests (c : Connector) (ps : List Problem) (_hne : ps ≠ []) :
    (c.batch_mode = true →
      attempt_requests [c] ps =
        [{ url := c.url, method := c.method, body := JsonBody.arr ps }]) ∧
    (c.batch_mode = false →
      attempt_requests [c] ps =
        ps.map (fun p => { url := c.url, method := c.method, body := JsonBody.obj p }) ∧
      (attempt_requests [c] ps).length = ps.length) := by
  constructor
  · intro hb
    simp [attempt_requests, delivery_tasks, hb, task_request]
  · intro hb
    constructor
    · simp [attempt_requests, delivery_tasks, hb, task_request]
    · simp [attempt_requests, delivery_tasks, hb]

/-- Sample batch-mode connector. -/
def connBatch : Connector :=
  { name := "team-a", url := "https://a.example/hook",
    method := HttpMethod.post, batch_mode := true }

/-- Sample individual-mode connector. -/
def connSolo : Connector :=
  { name := "team-b", url := "https://b.example/hook",
    method := HttpMethod.post, batch_mode := false }

/-- Witness for dispatch_mode_requests on two records: the batch
connector sends one request carrying both, the individual connector
two requests of one record each. -/
theorem dispatch_mode_requests_witness :
    ([pOpen, pResolved] ≠ ([] : List Problem)) ∧
    attempt_requests [connBatch] [pOpen, pResolved] =
      [{ url := connBatch.url, method := HttpMethod.post,
         body := JsonBody.arr [pOpen, pResolved] }] ∧
    attempt_requests [connSolo] [pOpen, pResolved] =
      [{ url := connSolo.url, method := HttpMethod.post, body := JsonBody.obj pOpen },
       { url := connSolo.url, method := HttpMethod.post,
         body := JsonBody.obj pResolved }] := by
  refine ⟨by decide, ?_, ?_⟩
  · exact (dispatch_mode_requests connBatch [pOpen, pResolved] (by decide)).1 rfl
  · exact ((dispatch_mode_requests connSolo [pOpen, pResolved] (by decide)).2 rfl).1

/-! Lemmas about the poll loop. -/

lemma classify_foldl_filter (now : Int) :
    ∀ (records : List (Problem × Bool)) (acc : CycleAcc),
      records.foldl (classify_step now) acc =
        (records.filter (fun r => r.2)).foldl (classify_step now) acc := by
  intro records
  induction records with
  | nil => intro acc; rfl
  | cons r l ih =>
    intro acc
    obtain ⟨p, b⟩ := r
    cases b with
    | true =>
      rw [List.foldl_cons, List.filter_cons]
      simp only [if_pos]
      rw [List.foldl_cons]
      exact ih (classify_step now acc (p, true))
    | false =>
      rw [List.foldl_cons, List.filter_cons]
      simp only [Bool.false_eq_true, if_false]
      exact ih acc

/-- C7: a fetch error aborts only its own poll cycle: that cycle
leaves the store unchanged, and the loop still executes every
remaining cycle; within one cycle, a record whose classification
fails is logged and skipped, so the classification loop produces
exactly the state it produces on the successfully classified records
alone — the rest of the records and the delivery of the collected
ones are unaffected. -/
theorem cycle_error_isolation (connectors : List Connector) (db : DbState)
    (bad : CycleInput) (hbad : bad.fetch = Except.error ())
    (rest : List CycleInput) (records : List (Problem × Bool)) (now : Int) :
    run_cycles connectors db (bad :: rest) = run_cycles connectors db rest ∧
    classify_all db records now =
      classify_all db (records.filter (fun r => r.2)) now := by
  constructor
  · have h1 : run_cycle connectors db bad = db := by
      unfold run_cycle poll_and_forward
      rw [hbad]
    unfold run_cycles
    rw [List.foldl_cons, h1]
  · exact classify_foldl_filter now records (init_acc db)

/-- A cycle whose fetch fails. -/
def badCycle : CycleInput :=
  { fetch := Except.error (), outcome := fun _ => Outcome.success 200,
    hist_ok := fun _ => true, now := 0 }

/-- A cycle fetching P1 OPEN with everything succeeding. -/
def okCycle : CycleInput :=
  { fetch := Except.ok [(pOpen, true)], outcome := fun _ => Outcome.success 200,
    hist_ok := fun _ => true, now := 1 }

/-- Witness for cycle_error_isolation: a failed-fetch cycle followed
by a good one equals the good one alone, and a record list whose
second record fails classification classifies like the first record
alone. -/
theorem cycle_error_isolation_witness :
    run_cycles [connSolo] { problems := [], history := [] } [badCycle, okCycle] =
      run_cycles [connSolo] { problems := [], history := [] } [okCycle] ∧
    classify_all { problems := [], history := [] }
        [(pOpen, true), (pResolved, false)] 5 =
      classify_all { problems := [], history := [] } [(pOpen, true)] 5 := by
  have h := cycle_error_isolation [connSolo] { problems := [], history := [] }
    badCycle rfl [okCycle] [(pOpen, true), (pResolved, false)] 5
  exact ⟨h.1, h.2⟩

end DPF
